import Mathlib

/-!
Verification development for the report-build-system directive parser and
python-docx resolution/rendering engine.

The definitions below are a shallow embedding of the Python sources:
  - directives/parser.py      (Directive, parse_directives)
  - engines/docx_engine.py    (DocxEngine._render_markdown and helpers)
  - directives/docx_helpers.py (latex_to_omml cache behaviour)

Machine-level docx XML manipulation and external collaborators (filesystem,
pandoc converter, lxml XML parsing) are modelled as opaque oracles, matching
the specification's scoping of those collaborators to their interfaces.
-/

namespace Marginalia

/-! ## Python-compatible character/string primitives -/

/-- Python str.strip character class: the characters `\s` matches in `re`. -/
def pyIsSpace (c : Char) : Bool :=
  c == ' ' || c == '\t' || c == '\n' || c == '\r' || c == '\x0b' || c == '\x0c'

/-- Regex word character `\w` (modelled over ASCII letters, digits, underscore). -/
def isWordChar (c : Char) : Bool :=
  c.isAlphanum || c == '_'

/-- Character admissible in the tail of a directive name: `[\w-]`. -/
def isNameTail (c : Char) : Bool :=
  isWordChar c || c == '-'

/-- Python `str.strip()`: remove whitespace from both ends. -/
def pyStrip (s : String) : String :=
  String.mk (((s.toList.dropWhile pyIsSpace).reverse.dropWhile pyIsSpace).reverse)

/-- Python `str.strip('|')`: remove pipe characters from both ends. -/
def pyStripPipe (s : String) : String :=
  String.mk (((s.toList.dropWhile (· == '|')).reverse.dropWhile (· == '|')).reverse)

/-- Python `s.count(c)` for a single character. -/
def countChar (s : String) (c : Char) : Nat :=
  (s.toList.filter (· == c)).length

/-- List version of `String.startsWith` for `List Char` patterns. -/
def listStartsWith : List Char → List Char → Bool
  | [], _ => true
  | _ :: _, [] => false
  | a :: as, b :: bs => a == b && listStartsWith as bs

/-- Single-character split, accumulator style (kernel-reducible replacement
for `String.splitOn` with a one-character separator, which is how the source
uses `str.split`). -/
def splitCharAux (c : Char) : List Char → List Char → List (List Char)
  | [], acc => [acc.reverse]
  | x :: xs, acc =>
    if x == c then acc.reverse :: splitCharAux c xs []
    else splitCharAux c xs (x :: acc)

/-- Python `s.split(c)` for a one-character separator `c` (same behaviour as
`String.splitOn` on these inputs: no empty-field collapsing). -/
def pySplit (c : Char) (s : String) : List String :=
  (splitCharAux c s.toList []).map String.mk

/-! ## The directive regex

The source compiles
  `<!--\s*(/?\w[\w-]*)(?:\s*:\s*(.+?))?\s*-->`
and uses `re.search` on a single line.  The functions below implement exactly
the backtracking-regex semantics of that pattern: leftmost match, greedy name
run with backtracking over trailing `[\w-]` characters, the optional
colon-argument group preferred when it can match, greedy `\s*` before the lazy
`(.+?)` group, and a deterministic `\s*-->` closer. -/

/-- Does `\s*-->` match at the start of `cs`?  (Deterministic because `-` is
not a whitespace character.) -/
def closeAfter (cs : List Char) : Bool :=
  match cs.dropWhile pyIsSpace with
  | '-' :: '-' :: '>' :: _ => true
  | _ => false

/-- Lazy `(.+?)` followed by `\s*-->`: the shortest non-empty prefix of `cs`
after which the closer matches. -/
def lazyArgs : List Char → Option (List Char)
  | [] => none
  | c :: rest => if closeAfter rest then some [c] else (lazyArgs rest).map (fun a => c :: a)

/-- Greedy `\s*` before the lazy group: try consuming `k` whitespace
characters, from `k` down to 0, and take the first success. -/
def argsSearchAux (cs : List Char) : Nat → Option (List Char)
  | 0 => lazyArgs cs
  | k + 1 =>
    match lazyArgs (cs.drop (k + 1)) with
    | some a => some a
    | none => argsSearchAux cs k

/-- Match `\s*(.+?)\s*-->` against `cs`, returning the captured group. -/
def argsSearch (cs : List Char) : Option (List Char) :=
  argsSearchAux cs (cs.takeWhile pyIsSpace).length

/-- Match the part of the pattern after the directive name:
`(?:\s*:\s*(.+?))?\s*-->`.  Returns `some rawArgs?` on success, where
`rawArgs?` is the optional second capture group. -/
def matchTail (cs : List Char) : Option (Option (List Char)) :=
  let viaArgs : Option (List Char) :=
    match cs.dropWhile pyIsSpace with
    | ':' :: afterColon => argsSearch afterColon
    | _ => none
  match viaArgs with
  | some a => some (some a)
  | none => if closeAfter cs then some none else none

/-- Backtrack over the greedy `[\w-]*` name tail: with `k` tail characters
included in the name (tried from the full run down to zero), attempt the rest
of the pattern on what remains. -/
def tryNameLen (base ext after : List Char) : Nat → Option (List Char × Option (List Char))
  | 0 => (matchTail (ext ++ after)).map (fun a => (base, a))
  | k + 1 =>
    match matchTail (ext.drop (k + 1) ++ after) with
    | some a => some (base ++ ext.take (k + 1), a)
    | none => tryNameLen base ext after k

/-- Match `/?\w[\w-]*` (the name group) and then the tail of the pattern. -/
def matchName (cs : List Char) : Option (List Char × Option (List Char)) :=
  match cs with
  | '/' :: c :: rest =>
    if isWordChar c then
      let ext := rest.takeWhile isNameTail
      tryNameLen ['/', c] ext (rest.drop ext.length) ext.length
    else none
  | c :: rest =>
    if isWordChar c then
      let ext := rest.takeWhile isNameTail
      tryNameLen [c] ext (rest.drop ext.length) ext.length
    else none
  | [] => none

/-- Attempt the whole pattern anchored at the start of `cs`:
`<!--` then `\s*` (deterministic: whitespace is disjoint from `/` and `\w`)
then the name and tail. -/
def matchAt : List Char → Option (List Char × Option (List Char))
  | '<' :: '!' :: '-' :: '-' :: rest => matchName (rest.dropWhile pyIsSpace)
  | _ => none

/-- Leftmost search (`re.search`): try the pattern at each start position. -/
def searchComment : List Char → Option (List Char × Option (List Char))
  | [] => none
  | c :: rest =>
    match matchAt (c :: rest) with
    | some r => some r
    | none => searchComment rest

/-- Model of `_DIRECTIVE_RE.search(line)` followed by the source's
`m.group(1).strip().lower()` normalisation (strip is a no-op because name
characters are never whitespace) and `m.group(2)` extraction.  Returns
`(name, rawArgs?)`. -/
def searchDirective (l : String) : Option (String × Option String) :=
  (searchComment l.toList).map (fun p => (String.mk (p.1.map Char.toLower), p.2.map String.mk))

/-! ## Directive data model (directives/parser.py) -/

/-- The DirectiveType enum of the source. -/
inductive DirectiveType where
  | FIGURE
  | EQUATION
  | TABLE
  | TABLE_END
  | ALGORITHM
  | ALGORITHM_END
  | REF
  | PAGEBREAK
  | RAW_DOCX
  | RAW_DOCX_END
  | STYLE
deriving DecidableEq, Repr

/-- Enum value lookup `DirectiveType(name)` restricted to recognised names;
`none` models `name not in _DIRECTIVE_NAMES`. -/
def directiveTypeOfName (s : String) : Option DirectiveType :=
  if s = "figure" then some .FIGURE
  else if s = "equation" then some .EQUATION
  else if s = "table" then some .TABLE
  else if s = "/table" then some .TABLE_END
  else if s = "algorithm" then some .ALGORITHM
  else if s = "/algorithm" then some .ALGORITHM_END
  else if s = "ref" then some .REF
  else if s = "pagebreak" then some .PAGEBREAK
  else if s = "raw-docx" then some .RAW_DOCX
  else if s = "/raw-docx" then some .RAW_DOCX_END
  else if s = "style" then some .STYLE
  else none

/-- The `_BLOCK_END_MAP` dict: closing tag expected for each block directive. -/
def blockEndMap (s : String) : Option String :=
  if s = "table" then some "/table"
  else if s = "algorithm" then some "/algorithm"
  else if s = "raw-docx" then some "/raw-docx"
  else none

/-- Parsed directive from an HTML comment (dataclass `Directive`). -/
structure Directive where
  type : DirectiveType
  args : List String := []
  body : Option String := none
  line : Nat := 0
deriving DecidableEq, Repr

/-- Accessor `Directive.label`: `args[0].strip() if args else None`. -/
def Directive.label (d : Directive) : Option String :=
  match d.args with
  | [] => none
  | a :: _ => some (pyStrip a)

/-- Accessor `Directive.path`: `args[1].strip() if len(args) > 1 else None`. -/
def Directive.path (d : Directive) : Option String :=
  (d.args[1]?).map pyStrip

/-- Accessor `Directive.caption`: index 2 for figures, index 1 for tables and
algorithms, `None` otherwise. -/
def Directive.caption (d : Directive) : Option String :=
  if d.type = DirectiveType.FIGURE then (d.args[2]?).map pyStrip
  else if d.type = DirectiveType.TABLE ∨ d.type = DirectiveType.ALGORITHM then
    (d.args[1]?).map pyStrip
  else none

/-- Accessor `Directive.width`: `args[3].strip() if len(args) > 3 else None`. -/
def Directive.width (d : Directive) : Option String :=
  (d.args[3]?).map pyStrip

/-- Accessor `Directive.latex` (equation directives). -/
def Directive.latex (d : Directive) : Option String :=
  (d.args[1]?).map pyStrip

/-- Accessor `Directive.style_name` (style directives). -/
def Directive.style_name (d : Directive) : Option String :=
  match d.args with
  | [] => none
  | a :: _ => some (pyStrip a)

/-- Accessor `Directive.style_text` (style directives). -/
def Directive.style_text (d : Directive) : Option String :=
  (d.args[1]?).map pyStrip

/-! ## parse_directives -/

/-- Argument splitting: `[a.strip() for a in raw_args.split('|')] if raw_args
else []` where `raw_args = m.group(2) or ''`. -/
def parseArgs (rawArgs : Option String) : List String :=
  match rawArgs with
  | none => []
  | some s => if s = "" then [] else (pySplit '|' s).map pyStrip

/-- Does the line's first regex match carry exactly the expected closing name
(`end_m.group(1).strip().lower() == end_tag`)? -/
def isCloseLine (endTag : String) (l : String) : Bool :=
  match searchDirective l with
  | some (nm, _) => nm == endTag
  | none => false

/-- Main loop of `parse_directives`, one fuel unit per loop iteration.  Every
iteration consumes at least one line, so `fuel = lines.length` always reaches
the end of input; the fuel-exhaustion branch returns the same result as the
end-of-input branch. -/
def parseLoop (fuel : Nat) (lines : List String) (n : Nat) : List Directive :=
  match fuel, lines with
  | 0, _ => []
  | _ + 1, [] => []
  | fuel + 1, line :: rest =>
    match searchDirective line with
    | none => parseLoop fuel rest (n + 1)
    | some (name, rawArgs) =>
      match directiveTypeOfName name with
      | none => parseLoop fuel rest (n + 1)
      | some dtype =>
        let args := parseArgs rawArgs
        match blockEndMap name with
        | some endTag =>
          let bodyLines := rest.takeWhile (fun l2 => !(isCloseLine endTag l2))
          { type := dtype, args := args,
            body := some (String.intercalate "\n" bodyLines), line := n }
            :: parseLoop fuel (rest.drop (bodyLines.length + 1)) (n + bodyLines.length + 2)
        | none =>
          { type := dtype, args := args, line := n } :: parseLoop fuel rest (n + 1)

/-- Model of `parse_directives(text)`: split on newlines and scan with 1-based
line numbers. -/
def parse_directives (text : String) : List Directive :=
  let lines := pySplit '\n' text
  parseLoop lines.length lines 1

/-! ## Rendering engine (engines/docx_engine.py)

The output docx body is modelled as an append-ordered list of `RBlock`s: every
paragraph/table element the engine inserts becomes one block, in insertion
order (each `_move_paragraph` call inserts immediately before the same fixed
reference element, or appends, so insertion order is document order).
Word-XML internals below block granularity (runs, SEQ/REF field characters,
bookmarks, bold flags) are summarised in the constructor fields. -/

/-- One unit of output content. -/
inductive RBlock where
  /-- Flushed prose paragraph; `_add_inline_markup` distributes the text over
  bold/italic/code runs inside the paragraph. -/
  | para (text : String)
  /-- Paragraph inserted with an explicit named style (`insert_paragraph`);
  headings use style `Heading n`, algorithm body lines use `Normal`. -/
  | styled (style : Option String) (text : String)
  /-- Explicit page break paragraph. -/
  | pageBreak
  /-- Centered image paragraph of a figure (emitted only when the resolved
  path exists). -/
  | figImage (path : String) (width : Option String)
  /-- Centered figure caption: the 図 glyph, the number (a SEQ field when
  `seq` is true, else the literal `numText`), and the caption. -/
  | figCaption (seq : Bool) (num : Nat) (numText : String) (label : String) (caption : String)
  /-- Equation paragraph: the OMML element when conversion succeeded, else the
  raw latex as an italic run; then a tab and the parenthesised number. -/
  | eqPara (seq : Bool) (omml : Option String) (latex : String) (num : Nat) (numText : String)
  /-- Centered table caption with the 表 glyph. -/
  | tblCaption (seq : Bool) (num : Nat) (numText : String) (label : String) (caption : String)
  /-- Word table with bold header row and data rows. -/
  | table (header : List String) (rows : List (List String))
  /-- Bold algorithm caption paragraph `Algorithm numText: caption`. -/
  | algCaption (num : Nat) (numText : String) (label : String) (caption : String)
  /-- REF field paragraph pointing at a bookmark (seq crossref mode). -/
  | refField (bookmark : String)
  /-- Raw XML fragment spliced into the body (raw-docx). -/
  | rawXml (xml : String)
deriving DecidableEq, Repr

/-- Per-build mutable state of `DocxEngine`: the four category counters and
the label map (a Python dict, modelled as an assoc list with replace-on-set). -/
structure EngineState where
  fig_counter : Nat
  tbl_counter : Nat
  eq_counter : Nat
  alg_counter : Nat
  labels : List (String × String)
deriving DecidableEq, Repr

/-- Fresh state at the start of a build (counters reset to 0, labels empty). -/
def initState : EngineState := ⟨0, 0, 0, 0, []⟩

/-- Dict assignment `m[k] = v`: replace the existing entry or append. -/
def setKey {α : Type} : List (String × α) → String → α → List (String × α)
  | [], k, v => [(k, v)]
  | (k', v') :: rest, k, v =>
    if k' = k then (k, v) :: rest else (k', v') :: setKey rest k v

/-- Dict lookup `m.get(k)`. -/
def lookupKey {α : Type} : List (String × α) → String → Option α
  | [], _ => none
  | (k', v') :: rest, k => if k' = k then some v' else lookupKey rest k

/-- Build-wide configuration and external collaborators. -/
structure RenderEnv where
  /-- `chapter-prefix` manifest option (the `prefix` argument of the insert
  helpers). -/
  pfx : Option String
  /-- `crossref-mode` manifest option; `"seq"` (the default) emits deferred
  SEQ/REF fields, anything else resolves immediately. -/
  crossrefMode : String
  /-- `page-break-before-h2` manifest option. -/
  pageBreakBeforeH2 : Bool
  /-- Project root used to resolve relative image paths. -/
  projectRoot : String
  /-- Filesystem oracle: `Path.exists()`. -/
  fileExists : String → Bool
  /-- Oracle for `run.add_picture(path)` succeeding on an existing path:
  `false` models a path that exists but is not a loadable image (for example a
  directory, such as the project root itself), on which `add_picture` raises
  and — there being no try/except on that call — aborts the render. -/
  imageOk : String → Bool
  /-- Composite result of `latex_to_omml` (cache plus converter) during this
  build: `none` models a failed conversion. -/
  ommlOf : String → Option String
  /-- Oracle for `etree.fromstring` success on a raw-docx body. -/
  xmlOk : String → Bool

/-- Auto-number text: `f"{prefix}-{n}" if prefix else str(n)` (an empty
prefix string is falsy in Python). -/
def numText (pfx : Option String) (n : Nat) : String :=
  match pfx with
  | some p => if p = "" then toString n else p ++ "-" ++ toString n
  | none => toString n

/-- Path join `project_root / img_path` (pathlib drops empty components). -/
def joinPath (root rel : String) : String :=
  if rel = "" then root else root ++ "/" ++ rel

/-- Model of `_insert_figure`: bump the figure counter; when the resolved
path exists, attempt the image paragraph — `run.add_picture` raises on a path
that is not a loadable image, and since the width-branch `except` retries the
same call and the no-width call is unguarded, the exception escapes
`_insert_figure` either way and aborts the render before the label write and
the caption (`none`).  Otherwise emit the image paragraph exactly when the
path exists, record the label mapping, and emit the caption.  Note a figure
with no path resolves `''` to the project root itself, which exists whenever a
build runs. -/
def insertFigure (env : RenderEnv) (s : EngineState) (d : Directive) :
    Option (EngineState × List RBlock) :=
  let figc := s.fig_counter + 1
  let label := (d.label).getD ""
  let imgPath := (d.path).getD ""
  let caption := (d.caption).getD ""
  let fullPath := if listStartsWith ['/'] imgPath.toList then imgPath
    else joinPath env.projectRoot imgPath
  if env.fileExists fullPath && !(env.imageOk fullPath) then
    none
  else
    let imgBlocks : List RBlock :=
      if env.fileExists fullPath then [RBlock.figImage fullPath d.width] else []
    let nt := numText env.pfx figc
    let s' := { s with fig_counter := figc,
                       labels := setKey s.labels ("fig:" ++ label) ("図" ++ nt) }
    some (s', imgBlocks ++ [RBlock.figCaption (env.crossrefMode == "seq") figc nt label caption])

/-- Model of `_insert_equation`: bump the equation counter, record the label
mapping, emit the equation paragraph (OMML or italic-latex fallback plus the
parenthesised number). -/
def insertEquation (env : RenderEnv) (s : EngineState) (d : Directive) :
    EngineState × List RBlock :=
  let eqc := s.eq_counter + 1
  let label := (d.label).getD ""
  let latex := (d.latex).getD ""
  let nt := "(" ++ numText env.pfx eqc ++ ")"
  let s' := { s with eq_counter := eqc,
                     labels := setKey s.labels ("eq:" ++ label) nt }
  (s', [RBlock.eqPara (env.crossrefMode == "seq") (env.ommlOf latex) latex eqc nt])

/-- Model of `_insert_table_caption`. -/
def insertTableCaption (env : RenderEnv) (s : EngineState) (d : Directive) :
    EngineState × List RBlock :=
  let tblc := s.tbl_counter + 1
  let label := (d.label).getD ""
  let caption := (d.caption).getD ""
  let nt := numText env.pfx tblc
  let s' := { s with tbl_counter := tblc,
                     labels := setKey s.labels ("tbl:" ++ label) ("表" ++ nt) }
  (s', [RBlock.tblCaption (env.crossrefMode == "seq") tblc nt label caption])

/-- Model of `_insert_algorithm_caption`. -/
def insertAlgorithmCaption (env : RenderEnv) (s : EngineState) (d : Directive) :
    EngineState × List RBlock :=
  let algc := s.alg_counter + 1
  let label := (d.label).getD ""
  let caption := (d.caption).getD ""
  let nt := numText env.pfx algc
  let s' := { s with alg_counter := algc,
                     labels := setKey s.labels ("alg:" ++ label) ("Algorithm " ++ nt) }
  (s', [RBlock.algCaption algc nt label caption])

/-- Non-blank stripped lines of a table body:
`[l.strip() for l in table_md.strip().split('\n') if l.strip()]`. -/
def tableLines (tableMd : String) : List String :=
  (((pySplit '\n' (pyStrip tableMd)).map pyStrip).filter (fun l => l ≠ ""))

/-- Separator-line test `re.match(r'^[\|\s\-:]+$', line)`. -/
def isSepLine (l : String) : Bool :=
  l.toList ≠ [] && l.toList.all (fun c => c == '|' || pyIsSpace c || c == '-' || c == ':')

/-- Pad with empty cells / trim to the header column count. -/
def padTo (n : Nat) (cells : List String) : List String :=
  (cells ++ List.replicate (n - cells.length) "").take n

/-- Cells of one table line: `[c.strip() for c in row.strip('|').split('|')]`. -/
def rowCells (l : String) : List String :=
  (pySplit '|' (pyStripPipe l)).map pyStrip

/-- Model of `_render_table_body`: `none` when fewer than two non-blank lines
remain (the early `return` that emits nothing), otherwise the header cells and
the padded/trimmed data rows (skipping one optional separator line). -/
def renderTableBody (tableMd : String) : Option (List String × List (List String)) :=
  match tableLines tableMd with
  | l0 :: l1 :: restL =>
    let headerCells := rowCells l0
    let numCols := headerCells.length
    let dataLines := if isSepLine l1 then restL else l1 :: restL
    some (headerCells, dataLines.map (fun rl => padTo numCols (rowCells rl)))
  | _ => none

/-- Dispatch of one directive inside `_render_markdown`'s scan (the
`if/elif` chain over `d.type`); returns the updated state and the blocks
emitted for the directive, or `none` when the dispatch raises (only the
figure branch can: an uncaught `add_picture` failure). -/
def dispatchDirective (env : RenderEnv) (s : EngineState) (d : Directive) :
    Option (EngineState × List RBlock) :=
  match d.type with
  | .PAGEBREAK => some (s, [RBlock.pageBreak])
  | .FIGURE => insertFigure env s d
  | .EQUATION => some (insertEquation env s d)
  | .TABLE =>
    let sc := insertTableCaption env s d
    let tblBlocks : List RBlock :=
      match d.body with
      | some b =>
        if b ≠ "" then
          match renderTableBody b with
          | some hr => [RBlock.table hr.1 hr.2]
          | none => []
        else []
      | none => []
    some (sc.1, sc.2 ++ tblBlocks)
  | .ALGORITHM =>
    let sc := insertAlgorithmCaption env s d
    let bodyBlocks : List RBlock :=
      match d.body with
      | some b =>
        if b ≠ "" then (pySplit '\n' b).map (fun bl => RBlock.styled (some "Normal") bl)
        else []
      | none => []
    some (sc.1, sc.2 ++ bodyBlocks)
  | .REF =>
    let label := (d.label).getD ""
    if env.crossrefMode == "seq" then
      some (s, [RBlock.refField ("_Ref_" ++ label)])
    else
      some (s, [RBlock.styled none ((lookupKey s.labels label).getD ("[" ++ label ++ "]"))])
  | .RAW_DOCX =>
    let blocks : List RBlock :=
      match d.body with
      | some b => if b ≠ "" then (if env.xmlOk b then [RBlock.rawXml b] else []) else []
      | none => []
    some (s, blocks)
  | .STYLE => some (s, [RBlock.styled d.style_name ((d.style_text).getD "")])
  | _ => some (s, [])

/-- Model of `flush_paragraph`: join the buffer, strip, and emit one prose
paragraph when non-empty. -/
def flushPar (buf : List String) : List RBlock :=
  if buf = [] then []
  else if pyStrip (String.intercalate "\n" buf) = "" then []
  else [RBlock.para (pyStrip (String.intercalate "\n" buf))]

/-- Line-to-directive lookup (`dir_map`); parse order gives strictly
increasing line numbers, so first match equals dict lookup. -/
def lookupLine (dm : List Directive) (n : Nat) : Option Directive :=
  dm.find? (fun d => d.line == n)

/-- Skip test for stray closing tags:
`re.match(r'^<!--\s*/(?:table|algorithm|raw-docx)\s*-->', stripped)`. -/
def isEndTagLine (l : String) : Bool :=
  match l.toList with
  | '<' :: '!' :: '-' :: '-' :: rest =>
    match rest.dropWhile pyIsSpace with
    | '/' :: r2 =>
      (listStartsWith "table".toList r2 && closeAfter (r2.drop 5)) ||
      (listStartsWith "algorithm".toList r2 && closeAfter (r2.drop 9)) ||
      (listStartsWith "raw-docx".toList r2 && closeAfter (r2.drop 8))
    | _ => false
  | _ => false

/-- Heading match `re.match(r'^(#{1,6})\s+(.+)$', line)`, returning the level
and the already-stripped heading text (`group(2).strip()`). -/
def headingOf (line : String) : Option (Nat × String) :=
  let cs := line.toList
  let lvl := (cs.takeWhile (· == '#')).length
  if 1 ≤ lvl ∧ lvl ≤ 6 then
    let after := cs.drop lvl
    let ws := after.takeWhile pyIsSpace
    let rem := after.drop ws.length
    if ws.length = 0 then none
    else if rem ≠ [] then some (lvl, pyStrip (String.mk rem))
    else if 2 ≤ ws.length then some (lvl, "")
    else none
  else none

/-- Horizontal-rule match `re.match(r'^(-{3,}|\*{3,}|_{3,})$', stripped)`. -/
def isHRule (l : String) : Bool :=
  let cs := l.toList
  decide (3 ≤ cs.length) && (cs.all (· == '-') || cs.all (· == '*') || cs.all (· == '_'))

/-- Main loop of `_render_markdown`: single forward scan over the source
lines, fuelled exactly like `parseLoop` (each iteration consumes at least one
line, so `fuel = lines.length` reaches the end; the fuel-exhaustion branch
coincides with the end-of-input branch, which flushes the pending paragraph).
A `none` from a directive dispatch is the uncaught exception propagating out
of `_render_markdown`: the scan stops and the whole render is aborted. -/
def renderLoop (env : RenderEnv) (dm : List Directive) :
    Nat → List String → Nat → EngineState → List String →
    Option (List RBlock × EngineState)
  | 0, _, _, s, buf => some (flushPar buf, s)
  | _ + 1, [], _, s, buf => some (flushPar buf, s)
  | fuel + 1, line :: rest, n, s, buf =>
    match lookupLine dm n with
    | some d =>
      let fl := flushPar buf
      match dispatchDirective env s d with
      | none => none
      | some sd =>
        match d.body with
        | some b =>
          let bodyLines := countChar b '\n' + 1
          (renderLoop env dm fuel (rest.drop (bodyLines + 1)) (n + bodyLines + 2) sd.1 []).map
            (fun r => (fl ++ sd.2 ++ r.1, r.2))
        | none =>
          (renderLoop env dm fuel rest (n + 1) sd.1 []).map
            (fun r => (fl ++ sd.2 ++ r.1, r.2))
    | none =>
      if isEndTagLine (pyStrip line) then
        renderLoop env dm fuel rest (n + 1) s buf
      else
        match headingOf line with
        | some lt =>
          let fl := flushPar buf
          let br : List RBlock :=
            if env.pageBreakBeforeH2 && lt.1 == 2 then [RBlock.pageBreak] else []
          (renderLoop env dm fuel rest (n + 1) s []).map
            (fun r => (fl ++ br ++ RBlock.styled (some ("Heading " ++ toString lt.1)) lt.2 ::
              r.1, r.2))
        | none =>
          if pyStrip line = "" then
            (renderLoop env dm fuel rest (n + 1) s []).map
              (fun r => (flushPar buf ++ r.1, r.2))
          else if isHRule (pyStrip line) then
            (renderLoop env dm fuel rest (n + 1) s []).map
              (fun r => (flushPar buf ++ r.1, r.2))
          else
            renderLoop env dm fuel rest (n + 1) s (buf ++ [line])

/-- Model of `_render_markdown`: parse the directives, then scan the lines
from line 1 with fresh per-build state, returning the ordered output blocks
and the final numbering state; `none` is an aborted render (an uncaught
per-directive exception, caught only in `build`, which then fails the whole
build). -/
def renderMarkdown (env : RenderEnv) (content : String) :
    Option (List RBlock × EngineState) :=
  let lines := pySplit '\n' content
  renderLoop env (parse_directives content) lines.length lines 1 initState []

/-! ## latex_to_omml conversion cache (directives/docx_helpers.py)

The pandoc pipeline is the opaque converter `conv`; the module-level
`_omml_cache` dict is threaded explicitly.  The returned `Nat` counts how many
times the external converter was invoked by the call (0 on a cache hit). -/

/-- Model of `latex_to_omml`: consult the cache first (a cached failure is a
hit that returns `none` without rerunning the converter); on a miss run the
converter and cache its result, success or failure alike. -/
def latex_to_omml (conv : String → Option String)
    (cache : List (String × Option String)) (latex_str : String) :
    Option String × List (String × Option String) × Nat :=
  match lookupKey cache latex_str with
  | some v => (v, cache, 0)
  | none => (conv latex_str, setKey cache latex_str (conv latex_str), 1)

/-! ## Counter bookkeeping helpers -/

/-- Figure caption numbers appearing in a block list, in emission order. -/
def figNums (bs : List RBlock) : List Nat :=
  bs.filterMap (fun b => match b with | RBlock.figCaption _ k _ _ _ => some k | _ => none)

/-- Table caption numbers appearing in a block list, in emission order. -/
def tblNums (bs : List RBlock) : List Nat :=
  bs.filterMap (fun b => match b with | RBlock.tblCaption _ k _ _ _ => some k | _ => none)

/-- Equation numbers appearing in a block list, in emission order. -/
def eqNums (bs : List RBlock) : List Nat :=
  bs.filterMap (fun b => match b with | RBlock.eqPara _ _ _ k _ => some k | _ => none)

/-- Algorithm caption numbers appearing in a block list, in emission order. -/
def algNums (bs : List RBlock) : List Nat :=
  bs.filterMap (fun b => match b with | RBlock.algCaption k _ _ _ => some k | _ => none)

lemma figNums_append (a b : List RBlock) : figNums (a ++ b) = figNums a ++ figNums b :=
  List.filterMap_append a b _

lemma tblNums_append (a b : List RBlock) : tblNums (a ++ b) = tblNums a ++ tblNums b :=
  List.filterMap_append a b _

lemma eqNums_append (a b : List RBlock) : eqNums (a ++ b) = eqNums a ++ eqNums b :=
  List.filterMap_append a b _

lemma algNums_append (a b : List RBlock) : algNums (a ++ b) = algNums a ++ algNums b :=
  List.filterMap_append a b _

lemma filterMap_const_none {α β : Type} (l : List α) :
    List.filterMap (fun _ => (none : Option β)) l = [] := by
  induction l with
  | nil => rfl
  | cons a l ih => simp [List.filterMap_cons, ih]

lemma figNums_flushPar (buf : List String) : figNums (flushPar buf) = [] := by
  unfold flushPar; split
  · rfl
  · split <;> rfl

lemma tblNums_flushPar (buf : List String) : tblNums (flushPar buf) = [] := by
  unfold flushPar; split
  · rfl
  · split <;> rfl

lemma eqNums_flushPar (buf : List String) : eqNums (flushPar buf) = [] := by
  unfold flushPar; split
  · rfl
  · split <;> rfl

lemma algNums_flushPar (buf : List String) : algNums (flushPar buf) = [] := by
  unfold flushPar; split
  · rfl
  · split <;> rfl

/-- Every directive dispatch emits exactly the caption/number blocks of its
own category, numbered with the post-increment counter value, and advances
that category's counter by exactly the number of such blocks (the other three
counters are untouched).  Case analysis over the `if/elif` dispatch chain. -/
lemma dispatch_counters (env : RenderEnv) (s : EngineState) (d : Directive)
    (p : EngineState × List RBlock) (hp : dispatchDirective env s d = some p) :
    (figNums p.2 = List.range' (s.fig_counter + 1) (figNums p.2).length ∧
      p.1.fig_counter = s.fig_counter + (figNums p.2).length) ∧
    (tblNums p.2 = List.range' (s.tbl_counter + 1) (tblNums p.2).length ∧
      p.1.tbl_counter = s.tbl_counter + (tblNums p.2).length) ∧
    (eqNums p.2 = List.range' (s.eq_counter + 1) (eqNums p.2).length ∧
      p.1.eq_counter = s.eq_counter + (eqNums p.2).length) ∧
    (algNums p.2 = List.range' (s.alg_counter + 1) (algNums p.2).length ∧
      p.1.alg_counter = s.alg_counter + (algNums p.2).length) := by
  cases ht : d.type <;>
    simp only [dispatchDirective, ht, insertFigure, insertEquation, insertTableCaption,
      insertAlgorithmCaption] at hp <;>
    (repeat' split at hp) <;>
    first
    | (simp only [Option.some.injEq] at hp
       subst hp
       simp [figNums, tblNums, eqNums, algNums, List.range', Function.comp_def,
         filterMap_const_none])
    | exact absurd hp (by simp)

/-- Combination step for the scan invariant: a no-number chunk `A`, then the
dispatch output `B` numbered from `proj s + 1`, then the tail `C` numbered
from the advanced state, together form one contiguous number range. -/
lemma counters_step (proj : EngineState → Nat) (nums : List RBlock → List Nat)
    (happ : ∀ a b, nums (a ++ b) = nums a ++ nums b)
    (A B C : List RBlock) (s s2 sEnd : EngineState)
    (hA : nums A = [])
    (hB : nums B = List.range' (proj s + 1) (nums B).length)
    (hs2 : proj s2 = proj s + (nums B).length)
    (hC : nums C = List.range' (proj s2 + 1) (nums C).length)
    (hEnd : proj sEnd = proj s2 + (nums C).length) :
    nums (A ++ B ++ C) = List.range' (proj s + 1) (nums (A ++ B ++ C)).length ∧
    proj sEnd = proj s + (nums (A ++ B ++ C)).length := by
  have hsplit : nums (A ++ B ++ C) = nums B ++ nums C := by
    rw [happ, happ, hA]; simp
  constructor
  · rw [hsplit]
    rw [List.length_append]
    conv_lhs => rw [hB, hC, hs2]
    have : proj s + (nums B).length + 1 = proj s + 1 + (nums B).length := by omega
    rw [this, List.range'_append_1]
    congr 1
    omega
  · rw [hsplit, List.length_append, hEnd, hs2]
    omega

/-- Scan invariant for one category, abstracted over the counter projection
and number extraction: the numbers emitted by the scan from state `s` are the
contiguous range starting at `proj s + 1`, and the final counter equals the
start plus the number of emissions.  This holds for every fuel value (early
termination only truncates the range). -/
lemma loop_counters (proj : EngineState → Nat) (nums : List RBlock → List Nat)
    (happ : ∀ a b, nums (a ++ b) = nums a ++ nums b)
    (hflush : ∀ buf, nums (flushPar buf) = [])
    (hstyled : ∀ st t tl, nums (RBlock.styled st t :: tl) = nums tl)
    (hpb : nums [RBlock.pageBreak] = [])
    (hdisp : ∀ env s d p, dispatchDirective env s d = some p →
      nums p.2 = List.range' (proj s + 1) (nums p.2).length ∧
      proj p.1 = proj s + (nums p.2).length) :
    ∀ (env : RenderEnv) (dm : List Directive) (fuel : Nat) (lines : List String)
      (n : Nat) (s : EngineState) (buf : List String) (r : List RBlock × EngineState),
      renderLoop env dm fuel lines n s buf = some r →
      nums r.1 = List.range' (proj s + 1) (nums r.1).length ∧
      proj r.2 = proj s + (nums r.1).length := by
  have hnil : nums [] = [] := by
    have h := happ [] []
    simp only [List.append_nil] at h
    have hlen := congrArg List.length h
    rw [List.length_append] at hlen
    exact List.eq_nil_of_length_eq_zero (by omega)
  have hbase : ∀ (s : EngineState) (buf : List String),
      nums (flushPar buf) = List.range' (proj s + 1) (nums (flushPar buf)).length ∧
      proj s = proj s + (nums (flushPar buf)).length := by
    intro s buf
    rw [hflush]
    simp [List.range']
  intro env dm fuel
  induction fuel with
  | zero =>
    intro lines n s buf r hr
    simp only [renderLoop, Option.some.injEq] at hr
    subst hr
    exact hbase s buf
  | succ f ih =>
    intro lines n s buf r hr
    cases lines with
    | nil =>
      simp only [renderLoop, Option.some.injEq] at hr
      subst hr
      exact hbase s buf
    | cons line rest =>
      rw [renderLoop] at hr
      cases hlk : lookupLine dm n with
      | some d =>
        simp only [hlk] at hr
        cases hdp : dispatchDirective env s d with
        | none =>
          rw [hdp] at hr
          exact absurd hr (by simp)
        | some sd =>
          simp only [hdp] at hr
          obtain ⟨hd1, hd2⟩ := hdisp env s d sd hdp
          cases hb : d.body with
          | some b =>
            simp only [hb, Option.map_eq_some'] at hr
            obtain ⟨rr, hrec, rfl⟩ := hr
            obtain ⟨ih1, ih2⟩ :=
              ih (rest.drop (countChar b '\n' + 1 + 1)) (n + (countChar b '\n' + 1) + 2)
                sd.1 [] rr hrec
            exact counters_step proj nums happ _ _ _ s sd.1 _
              (hflush buf) hd1 hd2 ih1 ih2
          | none =>
            simp only [hb, Option.map_eq_some'] at hr
            obtain ⟨rr, hrec, rfl⟩ := hr
            obtain ⟨ih1, ih2⟩ := ih rest (n + 1) sd.1 [] rr hrec
            exact counters_step proj nums happ _ _ _ s sd.1 _
              (hflush buf) hd1 hd2 ih1 ih2
      | none =>
        simp only [hlk] at hr
        have hlen0 : ([] : List Nat).length = 0 := rfl
        split at hr
        · exact ih rest (n + 1) s buf r hr
        · cases hh : headingOf line with
          | some lt =>
            simp only [hh, Option.map_eq_some'] at hr
            obtain ⟨rr, hrec, rfl⟩ := hr
            obtain ⟨ih1, ih2⟩ := ih rest (n + 1) s [] rr hrec
            have hbr : nums (if env.pageBreakBeforeH2 && lt.1 == 2
                then [RBlock.pageBreak] else []) = [] := by
              split
              · exact hpb
              · exact hnil
            have hsty : nums (RBlock.styled (some ("Heading " ++ toString lt.1)) lt.2 ::
                rr.1) = nums rr.1 := hstyled _ _ _
            have key := counters_step proj nums happ
              (flushPar buf ++ (if env.pageBreakBeforeH2 && lt.1 == 2
                then [RBlock.pageBreak] else []))
              []
              (RBlock.styled (some ("Heading " ++ toString lt.1)) lt.2 :: rr.1) s s rr.2
              (by rw [happ, hflush, hbr]; rfl)
              (by rw [hnil]; rfl)
              (by rw [hnil, hlen0]; omega)
              (by rw [hsty]; exact ih1)
              (by rw [hsty]; exact ih2)
            refine ⟨?_, ?_⟩
            · simpa [List.append_assoc] using key.1
            · simpa [List.append_assoc] using key.2
          | none =>
            simp only [hh] at hr
            split at hr
            · rw [Option.map_eq_some'] at hr
              obtain ⟨rr, hrec, rfl⟩ := hr
              obtain ⟨ih1, ih2⟩ := ih rest (n + 1) s [] rr hrec
              have key := counters_step proj nums happ (flushPar buf) [] rr.1 s s rr.2
                (hflush buf) (by rw [hnil]; rfl) (by rw [hnil, hlen0]; omega) ih1 ih2
              refine ⟨?_, ?_⟩
              · simpa [List.append_assoc] using key.1
              · simpa [List.append_assoc] using key.2
            · split at hr
              · rw [Option.map_eq_some'] at hr
                obtain ⟨rr, hrec, rfl⟩ := hr
                obtain ⟨ih1, ih2⟩ := ih rest (n + 1) s [] rr hrec
                have key := counters_step proj nums happ (flushPar buf) [] rr.1 s s rr.2
                  (hflush buf) (by rw [hnil]; rfl) (by rw [hnil, hlen0]; omega) ih1 ih2
                refine ⟨?_, ?_⟩
                · simpa [List.append_assoc] using key.1
                · simpa [List.append_assoc] using key.2
              · exact ih rest (n + 1) s (buf ++ [line]) r hr

/-! ## Concrete build environments used by the claim theorems -/

/-- Concrete environment: default `seq` crossref mode, no chapter prefix, no
existing files, failing converter, failing XML parse. -/
def envSeq : RenderEnv :=
  ⟨none, "seq", false, "/proj", fun _ => false, fun _ => false, fun _ => none, fun _ => false⟩

/-- Concrete environment in immediate crossref mode (any value other than
`"seq"`). -/
def envImm : RenderEnv :=
  ⟨none, "immediate", false, "/proj", fun _ => false, fun _ => false, fun _ => none,
    fun _ => false⟩

/-- Concrete environment of a real build: the project root itself exists (it
must, for `build` to run at all) but is not a loadable image, and no other
path exists. -/
def envRoot : RenderEnv :=
  ⟨none, "seq", false, "/proj", fun p => p == "/proj", fun _ => false, fun _ => none,
    fun _ => false⟩

/-! ## Claim theorems -/

/-- C1, counterexample.  The claim states that each category counter increases
by exactly 1 per labeled instance of that category rendered, the first labeled
instance starting at 1.  In the document
`<!-- equation -->` / `<!-- equation: a | x -->` (equation dispatch has no
failure path, so this build really completes) exactly one rendered equation
directive is labeled, yet the build finishes with the equation counter at 2
and renders that sole labeled instance with number (2), not (1): the counter
is in fact incremented for unlabeled instances as well. -/
theorem c1_counterexample :
    ((parse_directives "<!-- equation -->\n<!-- equation: a | x -->").filter
        (fun d => d.type == DirectiveType.EQUATION && (Directive.label d).isSome)).length = 1 ∧
    renderMarkdown envSeq "<!-- equation -->\n<!-- equation: a | x -->" =
      some ([RBlock.eqPara true none "" 1 "(1)", RBlock.eqPara true none "x" 2 "(2)"],
        ⟨0, 0, 2, 0, [("eq:", "(1)"), ("eq:a", "(2)")]⟩) := by
  decide

/-- C1, amended.  For every document build that completes, each category
counter (figure, table, equation, algorithm) strictly increases by exactly 1
per rendered instance of that category — labeled or not — starting at 1 for
the first rendered instance, and is never decremented or reset mid-build: the
sequence of numbers carried by the emitted blocks of each category is exactly
the contiguous range `1, 2, ...`, and the final counter equals the number of
rendered instances of the category. -/
theorem c1_amended (env : RenderEnv) (content : String) (r : List RBlock × EngineState)
    (hsome : renderMarkdown env content = some r) :
    (figNums r.1 = List.range' 1 (figNums r.1).length ∧
      r.2.fig_counter = (figNums r.1).length) ∧
    (tblNums r.1 = List.range' 1 (tblNums r.1).length ∧
      r.2.tbl_counter = (tblNums r.1).length) ∧
    (eqNums r.1 = List.range' 1 (eqNums r.1).length ∧
      r.2.eq_counter = (eqNums r.1).length) ∧
    (algNums r.1 = List.range' 1 (algNums r.1).length ∧
      r.2.alg_counter = (algNums r.1).length) := by
  simp only [renderMarkdown] at hsome
  have hfig := loop_counters (fun st => st.fig_counter) figNums figNums_append figNums_flushPar
    (fun st t tl => by simp [figNums, List.filterMap_cons])
    (by simp [figNums])
    (fun env s d p hp => (dispatch_counters env s d p hp).1)
    env (parse_directives content) (pySplit '\n' content).length (pySplit '\n' content) 1
    initState [] r hsome
  have htbl := loop_counters (fun st => st.tbl_counter) tblNums tblNums_append tblNums_flushPar
    (fun st t tl => by simp [tblNums, List.filterMap_cons])
    (by simp [tblNums])
    (fun env s d p hp => (dispatch_counters env s d p hp).2.1)
    env (parse_directives content) (pySplit '\n' content).length (pySplit '\n' content) 1
    initState [] r hsome
  have heq := loop_counters (fun st => st.eq_counter) eqNums eqNums_append eqNums_flushPar
    (fun st t tl => by simp [eqNums, List.filterMap_cons])
    (by simp [eqNums])
    (fun env s d p hp => (dispatch_counters env s d p hp).2.2.1)
    env (parse_directives content) (pySplit '\n' content).length (pySplit '\n' content) 1
    initState [] r hsome
  have halg := loop_counters (fun st => st.alg_counter) algNums algNums_append algNums_flushPar
    (fun st t tl => by simp [algNums, List.filterMap_cons])
    (by simp [algNums])
    (fun env s d p hp => (dispatch_counters env s d p hp).2.2.2)
    env (parse_directives content) (pySplit '\n' content).length (pySplit '\n' content) 1
    initState [] r hsome
  refine ⟨?_, ?_, ?_, ?_⟩
  · simpa [initState] using hfig
  · simpa [initState] using htbl
  · simpa [initState] using heq
  · simpa [initState] using halg

/-- C1, amended, witness: in the completed two-equation build the emitted
equation numbers are exactly the range 1, 2 and the final counter is 2. -/
theorem c1_amended_witness :
    eqNums [RBlock.eqPara true none "" 1 "(1)", RBlock.eqPara true none "x" 2 "(2)"] =
      List.range' 1 (eqNums [RBlock.eqPara true none "" 1 "(1)",
        RBlock.eqPara true none "x" 2 "(2)"]).length ∧
    (⟨0, 0, 2, 0, [("eq:", "(1)"), ("eq:a", "(2)")]⟩ : EngineState).eq_counter =
      (eqNums [RBlock.eqPara true none "" 1 "(1)",
        RBlock.eqPara true none "x" 2 "(2)"]).length := by
  exact (c1_amended envSeq "<!-- equation -->\n<!-- equation: a | x -->"
    ([RBlock.eqPara true none "" 1 "(1)", RBlock.eqPara true none "x" 2 "(2)"],
      ⟨0, 0, 2, 0, [("eq:", "(1)"), ("eq:a", "(2)")]⟩) (by decide)).2.2.1

/-- Take-while over a list split at the first failing element. -/
lemma takeWhile_append_mid {α : Type} (p : α → Bool) (pre : List α) (c : α) (post : List α)
    (h1 : ∀ x ∈ pre, p x = true) (h2 : p c = false) :
    (pre ++ c :: post).takeWhile p = pre := by
  induction pre with
  | nil => simp [List.takeWhile_cons, h2]
  | cons a as ihp =>
    have ha : p a = true := h1 a (by simp)
    simp only [List.cons_append, List.takeWhile_cons, ha, if_true]
    rw [ihp (fun x hx => h1 x (by simp [hx]))]

/-- C2.  Body capture of block directives in `parse_directives`: when the
first line opens a block directive, (1) if no later line carries the matching
closing tag, the emitted directive's body is all lines strictly after the
opening tag through the end of input, joined verbatim with newlines; (2) if a
matching closing tag occurs, the body is exactly the verbatim lines strictly
between the open tag line and the first closing tag line, both tag lines
excluded. -/
theorem c2_block_body (text l : String) (rest : List String) (tname : String)
    (rawArgs : Option String) (dty : DirectiveType) (endTag : String)
    (hsplit : pySplit '\n' text = l :: rest)
    (hsearch : searchDirective l = some (tname, rawArgs))
    (hty : directiveTypeOfName tname = some dty)
    (hend : blockEndMap tname = some endTag) :
    ((∀ x ∈ rest, isCloseLine endTag x = false) →
      (parse_directives text).head? =
        some ⟨dty, parseArgs rawArgs, some (String.intercalate "\n" rest), 1⟩) ∧
    (∀ (pre : List String) (c : String) (post : List String),
      rest = pre ++ c :: post →
      (∀ x ∈ pre, isCloseLine endTag x = false) →
      isCloseLine endTag c = true →
      (parse_directives text).head? =
        some ⟨dty, parseArgs rawArgs, some (String.intercalate "\n" pre), 1⟩) := by
  constructor
  · intro hnone
    have htw : rest.takeWhile (fun l2 => !(isCloseLine endTag l2)) = rest :=
      List.takeWhile_eq_self_iff.mpr (fun x hx => by simp [hnone x hx])
    simp only [parse_directives, hsplit, List.length_cons, parseLoop, hsearch, hty, hend, htw,
      List.head?_cons]
  · intro pre c post hrest hpre hc
    have htw : rest.takeWhile (fun l2 => !(isCloseLine endTag l2)) = pre := by
      rw [hrest]
      exact takeWhile_append_mid _ pre c post (fun x hx => by simp [hpre x hx]) (by simp [hc])
    simp only [parse_directives, hsplit, List.length_cons, parseLoop, hsearch, hty, hend, htw,
      List.head?_cons]

/-- C2, witness: an unterminated table body runs to end of input; a terminated
one captures exactly the lines between the tags. -/
theorem c2_block_body_witness :
    (parse_directives "<!-- table: t -->\nrow1\nrow2").head? =
      some ⟨DirectiveType.TABLE, ["t"], some "row1\nrow2", 1⟩ ∧
    (parse_directives "<!-- table: t -->\nrow1\n<!-- /table -->\nafter").head? =
      some ⟨DirectiveType.TABLE, ["t"], some "row1", 1⟩ := by
  constructor
  · exact (c2_block_body "<!-- table: t -->\nrow1\nrow2" "<!-- table: t -->" ["row1", "row2"]
      "table" (some "t") DirectiveType.TABLE "/table" (by decide) (by decide) (by decide)
      (by decide)).1 (by decide)
  · exact (c2_block_body "<!-- table: t -->\nrow1\n<!-- /table -->\nafter" "<!-- table: t -->"
      ["row1", "<!-- /table -->", "after"] "table" (some "t") DirectiveType.TABLE "/table"
      (by decide) (by decide) (by decide) (by decide)).2 ["row1"] "<!-- /table -->" ["after"]
      (by decide) (by decide) (by decide)

/-- C8, counterexample.  The claim asserts that an unterminated block
directive is surfaced as a diagnosable warning, making the parse or render
result distinguishable from the same input with an explicit closing tag at end
of input.  In fact the parser silently consumes to end of input and produces
exactly the same directive list either way: there is no warning channel and no
observable difference. -/
theorem c8_counterexample :
    parse_directives "<!-- table: t1 | cap -->\nrow" =
      parse_directives "<!-- table: t1 | cap -->\nrow\n<!-- /table -->" := by
  decide

/-- C8, amended.  Parsing an input whose first line opens a block directive
with no matching closing tag before end of input silently consumes every
remaining line as the body and yields exactly the same directive sequence as
the same input with a matching closing line appended at end of input; no
warning is surfaced (the parser's result type carries no diagnostics). -/
theorem c8_amended (l : String) (rest : List String) (c : String) (tname : String)
    (rawArgs : Option String) (endTag : String) (n fuel1 fuel2 : Nat)
    (hsearch : searchDirective l = some (tname, rawArgs))
    (hend : blockEndMap tname = some endTag)
    (hnone : ∀ x ∈ rest, isCloseLine endTag x = false)
    (hc : isCloseLine endTag c = true)
    (hf1 : 0 < fuel1) (hf2 : 0 < fuel2) :
    parseLoop fuel1 (l :: rest) n = parseLoop fuel2 (l :: (rest ++ [c])) n := by
  obtain ⟨f1, rfl⟩ : ∃ f1, fuel1 = f1 + 1 := ⟨fuel1 - 1, by omega⟩
  obtain ⟨f2, rfl⟩ : ∃ f2, fuel2 = f2 + 1 := ⟨fuel2 - 1, by omega⟩
  have hty : ∃ dty, directiveTypeOfName tname = some dty := by
    have h3 : tname = "table" ∨ tname = "algorithm" ∨ tname = "raw-docx" := by
      by_contra hno
      push_neg at hno
      obtain ⟨n1, n2, n3⟩ := hno
      simp [blockEndMap, n1, n2, n3] at hend
    rcases h3 with h | h | h <;> subst h <;> simp [directiveTypeOfName]
  obtain ⟨dty, hty⟩ := hty
  have htw1 : rest.takeWhile (fun l2 => !(isCloseLine endTag l2)) = rest :=
    List.takeWhile_eq_self_iff.mpr (fun x hx => by simp [hnone x hx])
  have htw2 : (rest ++ [c]).takeWhile (fun l2 => !(isCloseLine endTag l2)) = rest :=
    takeWhile_append_mid _ rest c [] (fun x hx => by simp [hnone x hx]) (by simp [hc])
  simp only [parseLoop, hsearch, hty, hend, htw1, htw2]
  have hd1 : rest.drop (rest.length + 1) = [] := by
    rw [List.drop_eq_nil_iff]
    omega
  have hd2 : (rest ++ [c]).drop (rest.length + 1) = [] := by
    rw [List.drop_eq_nil_iff]
    simp
  rw [hd1, hd2]
  cases f1 <;> cases f2 <;> rfl

/-- C8, amended, witness: the two-line unterminated document parses exactly
like its three-line terminated counterpart. -/
theorem c8_amended_witness :
    parseLoop 2 ["<!-- table: t1 | cap -->", "row"] 1 =
      parseLoop 3 ["<!-- table: t1 | cap -->", "row", "<!-- /table -->"] 1 := by
  exact c8_amended "<!-- table: t1 | cap -->" ["row"] "<!-- /table -->" "table"
    (some "t1 | cap") "/table" 1 2 3 (by decide) (by decide) (by decide) (by decide)
    (by decide) (by decide)

/-- Dict assignment then lookup of the same key always yields the new value. -/
lemma lookupKey_setKey {α : Type} (m : List (String × α)) (k : String) (v : α) :
    lookupKey (setKey m k v) k = some v := by
  induction m with
  | nil => simp [setKey, lookupKey]
  | cons kv rest ih =>
    by_cases hk : kv.1 = k
    · simp [setKey, hk, lookupKey]
    · simp [setKey, hk, lookupKey, ih]

/-- C3, code-bug demonstration.  Order preservation fails on an empty-bodied
block directive: the scan computes the lines to skip as
`d.body.count('\n') + 1`, which is 1 for an empty body even though the body
has zero lines, so the prose line `hello` immediately after the closing tag —
a line outside the directive's open-to-close span — is silently dropped
(first conjunct: no paragraph block at all).  With a one-line body the same
document shape keeps the line (second conjunct). -/
theorem c3_empty_body_line_drop :
    renderMarkdown envSeq "<!-- table: t | c -->\n<!-- /table -->\nhello" =
      some ([RBlock.tblCaption true 1 "1" "t" "c"], ⟨0, 1, 0, 0, [("tbl:t", "表1")]⟩) ∧
    renderMarkdown envSeq "<!-- table: t | c -->\nr\n<!-- /table -->\nhello" =
      some ([RBlock.tblCaption true 1 "1" "t" "c", RBlock.para "hello"],
        ⟨0, 1, 0, 0, [("tbl:t", "表1")]⟩) := by
  decide

/-- Padding or trimming always produces exactly the requested width. -/
lemma padTo_length (n : Nat) (cells : List String) : (padTo n cells).length = n := by
  simp [padTo]
  omega

/-- C4.  The table-body renderer takes the first non-blank line as header
cells, optionally skips a separator line, and pads or trims every remaining
non-blank line to exactly the header's column count (first conjunct); the
spec's round-trip example parses to header `a, b` with exactly the two data
rows `1, 2` and `3, 4` (second conjunct). -/
theorem c4_table_round_trip :
    (∀ (md : String) (h : List String) (rs : List (List String)),
      renderTableBody md = some (h, rs) → ∀ r ∈ rs, r.length = h.length) ∧
    renderTableBody "a|b\n--|--\n1|2\n3|4" = some (["a", "b"], [["1", "2"], ["3", "4"]]) := by
  constructor
  · intro md h rs hres r hr
    unfold renderTableBody at hres
    cases htl : tableLines md with
    | nil => rw [htl] at hres; exact absurd hres (by simp)
    | cons l0 tl =>
      cases tl with
      | nil => rw [htl] at hres; exact absurd hres (by simp)
      | cons l1 restL =>
        rw [htl] at hres
        simp only [Option.some.injEq, Prod.mk.injEq] at hres
        obtain ⟨hh, hrs⟩ := hres
        subst hh
        rw [← hrs] at hr
        obtain ⟨rl, _, hrl⟩ := List.mem_map.mp hr
        rw [← hrl]
        exact padTo_length _ _
  · decide

/-- C4, witness: a body with a short and a long row pads the first to three
cells and trims the second, each data row ending at the header's width. -/
theorem c4_table_round_trip_witness :
    renderTableBody "a|b|c\nx\ny|z|w|v" =
      some (["a", "b", "c"], [["x", "", ""], ["y", "z", "w"]]) ∧
    ["x", "", ""].length = ["a", "b", "c"].length := by
  refine ⟨by decide, ?_⟩
  exact c4_table_round_trip.1 "a|b|c\nx\ny|z|w|v" ["a", "b", "c"]
    [["x", "", ""], ["y", "z", "w"]] (by decide) ["x", "", ""] (by decide)

/-- C5.  In immediate crossref mode (any mode other than `seq`), a `ref`
directive is resolved by direct lookup in the label mapping built so far in
the same forward pass; a label not yet recorded falls back to the visible
bracketed placeholder, and the scan continues over the rest of the document
unchanged (the result is the flushed buffer, the ref paragraph, then the
rendering of the remaining lines from the same state). -/
theorem c5_ref_immediate (env : RenderEnv) (dm : List Directive) (f : Nat)
    (line : String) (rest : List String) (n : Nat) (s : EngineState) (buf : List String)
    (d : Directive)
    (hmode : env.crossrefMode ≠ "seq")
    (hd : lookupLine dm n = some d)
    (ht : d.type = DirectiveType.REF)
    (hb : d.body = none) :
    renderLoop env dm (f + 1) (line :: rest) n s buf =
      (renderLoop env dm f rest (n + 1) s []).map (fun r =>
        (flushPar buf ++
          [RBlock.styled none ((lookupKey s.labels ((Directive.label d).getD "")).getD
            ("[" ++ (Directive.label d).getD "" ++ "]"))] ++
          r.1, r.2)) := by
  have hmode' : (env.crossrefMode == "seq") = false := by
    simp [hmode]
  rw [renderLoop]
  simp only [hd, dispatchDirective, ht, hmode', Bool.false_eq_true, if_false, hb]

/-- C5, witness: a lone forward reference in immediate mode renders as the
bracketed placeholder and the build completes. -/
theorem c5_ref_immediate_witness :
    renderLoop envImm (parse_directives "<!-- ref: fig:x -->") 1 ["<!-- ref: fig:x -->"] 1
      initState [] = some ([RBlock.styled none "[fig:x]"], initState) := by
  rw [c5_ref_immediate envImm (parse_directives "<!-- ref: fig:x -->") 0 "<!-- ref: fig:x -->"
    [] 1 initState [] ⟨DirectiveType.REF, ["fig:x"], none, 1⟩ (by decide) (by decide) rfl rfl]
  decide

/-- C6, for the code-bug record.  The parsing half of the claim holds:
`<!-- figure: lbl -->` splits the colon arguments on pipes with per-field
trimming (general characterisation in conjuncts 5 and 6; no colon section
means an empty argument list) and yields exactly one figure directive whose
optional accessors `path`, `caption`, `width` are all `none`.  The rendering
half fails: with no path, the empty `img_path` resolves to the project root,
which exists in any real build but is not a loadable image, so
`run.add_picture` raises and the render aborts — the build of exactly the
spec's test input returns `none` instead of completing (final conjunct). -/
theorem c6_argument_padding :
    parse_directives "<!-- figure: lbl -->" = [⟨DirectiveType.FIGURE, ["lbl"], none, 1⟩] ∧
    Directive.path ⟨DirectiveType.FIGURE, ["lbl"], none, 1⟩ = none ∧
    Directive.caption ⟨DirectiveType.FIGURE, ["lbl"], none, 1⟩ = none ∧
    Directive.width ⟨DirectiveType.FIGURE, ["lbl"], none, 1⟩ = none ∧
    parseArgs none = [] ∧
    (∀ s : String, parseArgs (some s) = if s = "" then [] else (pySplit '|' s).map pyStrip) ∧
    renderMarkdown envRoot "<!-- figure: lbl -->" = none := by
  exact ⟨by decide, by decide, by decide, by decide, rfl, fun s => rfl, by decide⟩

/-- C7.  When the external converter fails on an expression not yet cached,
`latex_to_omml` returns the failure and records it in the cache (first
conjunct); any subsequent call for the exact same expression returns the
cached failure with zero converter invocations, whatever converter is now
supplied (second conjunct); and the equation dispatch renders the raw source
expression as the italic fallback (the `omml = none` field of the emitted
equation paragraph) followed by the auto-number, instead of aborting (third
conjunct). -/
theorem c7_converter_failure_cached (conv : String → Option String)
    (cache : List (String × Option String)) (latex_str : String)
    (hmiss : lookupKey cache latex_str = none)
    (hfail : conv latex_str = none) :
    latex_to_omml conv cache latex_str = (none, setKey cache latex_str none, 1) ∧
    (∀ conv2 : String → Option String,
      latex_to_omml conv2 (setKey cache latex_str none) latex_str =
        (none, setKey cache latex_str none, 0)) ∧
    (∀ (env : RenderEnv) (st : EngineState) (d : Directive),
      d.type = DirectiveType.EQUATION →
      env.ommlOf ((Directive.latex d).getD "") = none →
      dispatchDirective env st d =
        some ((insertEquation env st d).1,
          [RBlock.eqPara (env.crossrefMode == "seq") none ((Directive.latex d).getD "")
            (st.eq_counter + 1) ("(" ++ numText env.pfx (st.eq_counter + 1) ++ ")")])) := by
  refine ⟨?_, ?_, ?_⟩
  · unfold latex_to_omml
    rw [hmiss, hfail]
  · intro conv2
    unfold latex_to_omml
    rw [lookupKey_setKey]
  · intro env st d hty hfail2
    simp [dispatchDirective, hty, insertEquation, hfail2]

/-- C7, witness: a failing conversion of `x^2` is cached as a failure, a
retry with a now-succeeding converter still returns the cached failure without
invoking it, and the equation block falls back to the literal source. -/
theorem c7_converter_failure_cached_witness :
    latex_to_omml (fun _ => none) [] "x^2" = (none, [("x^2", none)], 1) ∧
    latex_to_omml (fun _ => some "M") [("x^2", none)] "x^2" = (none, [("x^2", none)], 0) ∧
    dispatchDirective envSeq initState ⟨DirectiveType.EQUATION, ["e", "x^2"], none, 1⟩ =
      some (⟨0, 0, 1, 0, [("eq:e", "(1)")]⟩, [RBlock.eqPara true none "x^2" 1 "(1)"]) := by
  have h := c7_converter_failure_cached (fun _ => none) [] "x^2" rfl rfl
  exact ⟨h.1, h.2.1 (fun _ => some "M"),
    h.2.2 envSeq initState ⟨DirectiveType.EQUATION, ["e", "x^2"], none, 1⟩ rfl rfl⟩

/-- C9.  Every figure rendering that completes, and every table rendering,
unconditionally overwrites the label-map entry for its qualified label,
whatever was stored before (first two conjuncts, for any prior state);
rendering two figures with the same label `a` and a nonexistent image path
(so that the image is skipped gracefully and the build really completes)
leaves the mapping holding only the later instance's reference, 図2 (third
conjunct): duplicate labels are silently last-write-wins. -/
theorem c9_label_last_write_wins :
    (∀ (env : RenderEnv) (s : EngineState) (d : Directive) (p : EngineState × List RBlock),
      insertFigure env s d = some p →
      lookupKey p.1.labels ("fig:" ++ (Directive.label d).getD "") =
        some ("図" ++ numText env.pfx (s.fig_counter + 1))) ∧
    (∀ (env : RenderEnv) (s : EngineState) (d : Directive),
      lookupKey (insertTableCaption env s d).1.labels ("tbl:" ++ (Directive.label d).getD "") =
        some ("表" ++ numText env.pfx (s.tbl_counter + 1))) ∧
    renderMarkdown envSeq "<!-- figure: a | img.png -->\n<!-- figure: a | img.png -->" =
      some ([RBlock.figCaption true 1 "1" "a" "", RBlock.figCaption true 2 "2" "a" ""],
        ⟨2, 0, 0, 0, [("fig:a", "図2")]⟩) := by
  refine ⟨?_, ?_, by decide⟩
  · intro env s d p hp
    simp only [insertFigure] at hp
    (repeat' split at hp) <;>
    first
    | (simp only [Option.some.injEq] at hp
       subst hp
       simp [lookupKey_setKey])
    | exact absurd hp (by simp)
  · intro env s d
    simp [insertTableCaption, lookupKey_setKey]

/-- C9, witness: a completing figure render with label `a` leaves the map
entry at the new reference. -/
theorem c9_label_last_write_wins_witness :
    lookupKey [("fig:a", "図1")] "fig:a" = some "図1" := by
  exact c9_label_last_write_wins.1 envSeq initState
    ⟨DirectiveType.FIGURE, ["a", "img.png"], none, 1⟩
    (⟨1, 0, 0, 0, [("fig:a", "図1")]⟩, [RBlock.figCaption true 1 "1" "a" ""]) (by decide)

/-- C10.  A table directive whose body has fewer than two non-blank lines
produces no table block at all: the body renderer returns `none` (first
conjunct), the dispatch emits exactly the caption block and nothing else
(second conjunct, silently dropping the header content), and the table counter
is still advanced (third conjunct). -/
theorem c10_short_table_body (env : RenderEnv) (s : EngineState) (d : Directive) (b : String)
    (ht : d.type = DirectiveType.TABLE)
    (hb : d.body = some b)
    (hshort : (tableLines b).length < 2) :
    renderTableBody b = none ∧
    dispatchDirective env s d =
      some ({ s with tbl_counter := s.tbl_counter + 1,
                     labels := setKey s.labels ("tbl:" ++ (Directive.label d).getD "")
                       ("表" ++ numText env.pfx (s.tbl_counter + 1)) },
        [RBlock.tblCaption (env.crossrefMode == "seq") (s.tbl_counter + 1)
          (numText env.pfx (s.tbl_counter + 1)) ((Directive.label d).getD "")
          ((Directive.caption d).getD "")]) := by
  have hnone : renderTableBody b = none := by
    unfold renderTableBody
    cases htl : tableLines b with
    | nil => rfl
    | cons l0 tl =>
      cases tl with
      | nil => rfl
      | cons l1 restL =>
        rw [htl] at hshort
        exact absurd hshort (by simp)
  refine ⟨hnone, ?_⟩
  simp only [dispatchDirective, ht, hb, insertTableCaption]
  by_cases hbe : b = ""
  · simp [hbe]
  · simp [hbe, hnone]

/-- C10, witness: a header-only body `a|b` yields no table, just the caption,
and the counter moves from 0 to 1. -/
theorem c10_short_table_body_witness :
    renderTableBody "a|b" = none ∧
    dispatchDirective envSeq initState ⟨DirectiveType.TABLE, ["t", "cap"], some "a|b", 1⟩ =
      some (⟨0, 1, 0, 0, [("tbl:t", "表1")]⟩, [RBlock.tblCaption true 1 "1" "t" "cap"]) := by
  exact c10_short_table_body envSeq initState ⟨DirectiveType.TABLE, ["t", "cap"], some "a|b", 1⟩
    "a|b" rfl rfl (by decide)

end Marginalia
